import Mathlib

/-!
Verification of the SMBIOS record composition and handle-linkage engine of
`PlatformSmbiosDxe.c` (RK356x UEFI platform driver).

The development shallowly embeds the algorithmic core of the driver:
  - `calculateCrc32NoComp` : the byte-wise CRC-32 update loop (`CalculateCrc32NoComp`)
    over the 256-entry table `mCrcTable`, machine integers modelled as `Nat`
    reduced mod 2^32 where the C types truncate;
  - `scanLoop` / `scan_version` : the four-state MAJOR.MINOR version scanner of
    `BIOSInfoUpdateSmbiosType0` (bytes as `Nat`, the loop as fuelled structural
    recursion, one fuel unit per loop iteration of the C `for`);
  - `logSmbiosBlob` / `logSmbiosSize` : the record serialization of `LogSmbiosData`
    (body + NUL-terminated string pack + terminator in a zero-allocated buffer);
  - `logSmbiosData` : the control flow of `LogSmbiosData` with the SMBIOS protocol
    (registry) and the allocator as oracles, recording submissions/insertions;
  - the topic builders and `platformSmbiosDriverEntryPoint` as explicit state
    threading of the mutable template fields that carry registry handles.
-/

namespace PlatformSmbiosDxe

/-- The 256-entry CRC table `mCrcTable`, transcribed from the source. -/
def mCrcTable : List Nat := [0x00000000, 0x77073096, 0xEE0E612C, 0x990951BA, 0x076DC419, 
0x706AF48F, 0xE963A535, 0x9E6495A3, 0x0EDB8832, 0x79DCB8A4, 0xE0D5E91E, 0x97D2D988, 0x09B64C2B, 
0x7EB17CBD, 0xE7B82D07, 0x90BF1D91, 0x1DB71064, 0x6AB020F2, 0xF3B97148, 0x84BE41DE, 0x1ADAD47D, 
0x6DDDE4EB, 0xF4D4B551, 0x83D385C7, 0x136C9856, 0x646BA8C0, 0xFD62F97A, 0x8A65C9EC, 0x14015C4F, 
0x63066CD9, 0xFA0F3D63, 0x8D080DF5, 0x3B6E20C8, 0x4C69105E, 0xD56041E4, 0xA2677172, 0x3C03E4D1, 
0x4B04D447, 0xD20D85FD, 0xA50AB56B, 0x35B5A8FA, 0x42B2986C, 0xDBBBC9D6, 0xACBCF940, 0x32D86CE3, 
0x45DF5C75, 0xDCD60DCF, 0xABD13D59, 0x26D930AC, 0x51DE003A, 0xC8D75180, 0xBFD06116, 0x21B4F4B5, 
0x56B3C423, 0xCFBA9599, 0xB8BDA50F, 0x2802B89E, 0x5F058808, 0xC60CD9B2, 0xB10BE924, 0x2F6F7C87, 
0x58684C11, 0xC1611DAB, 0xB6662D3D, 0x76DC4190, 0x01DB7106, 0x98D220BC, 0xEFD5102A, 0x71B18589, 
0x06B6B51F, 0x9FBFE4A5, 0xE8B8D433, 0x7807C9A2, 0x0F00F934, 0x9609A88E, 0xE10E9818, 0x7F6A0DBB, 
0x086D3D2D, 0x91646C97, 0xE6635C01, 0x6B6B51F4, 0x1C6C6162, 0x856530D8, 0xF262004E, 0x6C0695ED, 
0x1B01A57B, 0x8208F4C1, 0xF50FC457, 0x65B0D9C6, 0x12B7E950, 0x8BBEB8EA, 0xFCB9887C, 0x62DD1DDF, 
0x15DA2D49, 0x8CD37CF3, 0xFBD44C65, 0x4DB26158, 0x3AB551CE, 0xA3BC0074, 0xD4BB30E2, 0x4ADFA541, 
0x3DD895D7, 0xA4D1C46D, 0xD3D6F4FB, 0x4369E96A, 0x346ED9FC, 0xAD678846, 0xDA60B8D0, 0x44042D73, 
0x33031DE5, 0xAA0A4C5F, 0xDD0D7CC9, 0x5005713C, 0x270241AA, 0xBE0B1010, 0xC90C2086, 0x5768B525, 
0x206F85B3, 0xB966D409, 0xCE61E49F, 0x5EDEF90E, 0x29D9C998, 0xB0D09822, 0xC7D7A8B4, 0x59B33D17, 
0x2EB40D81, 0xB7BD5C3B, 0xC0BA6CAD, 0xEDB88320, 0x9ABFB3B6, 0x03B6E20C, 0x74B1D29A, 0xEAD54739, 
0x9DD277AF, 0x04DB2615, 0x73DC1683, 0xE3630B12, 0x94643B84, 0x0D6D6A3E, 0x7A6A5AA8, 0xE40ECF0B, 
0x9309FF9D, 0x0A00AE27, 0x7D079EB1, 0xF00F9344, 0x8708A3D2, 0x1E01F268, 0x6906C2FE, 0xF762575D, 
0x806567CB, 0x196C3671, 0x6E6B06E7, 0xFED41B76, 0x89D32BE0, 0x10DA7A5A, 0x67DD4ACC, 0xF9B9DF6F, 
0x8EBEEFF9, 0x17B7BE43, 0x60B08ED5, 0xD6D6A3E8, 0xA1D1937E, 0x38D8C2C4, 0x4FDFF252, 0xD1BB67F1, 
0xA6BC5767, 0x3FB506DD, 0x48B2364B, 0xD80D2BDA, 0xAF0A1B4C, 0x36034AF6, 0x41047A60, 0xDF60EFC3, 
0xA867DF55, 0x316E8EEF, 0x4669BE79, 0xCB61B38C, 0xBC66831A, 0x256FD2A0, 0x5268E236, 0xCC0C7795, 
0xBB0B4703, 0x220216B9, 0x5505262F, 0xC5BA3BBE, 0xB2BD0B28, 0x2BB45A92, 0x5CB36A04, 0xC2D7FFA7, 
0xB5D0CF31, 0x2CD99E8B, 0x5BDEAE1D, 0x9B64C2B0, 0xEC63F226, 0x756AA39C, 0x026D930A, 0x9C0906A9, 
0xEB0E363F, 0x72076785, 0x05005713, 0x95BF4A82, 0xE2B87A14, 0x7BB12BAE, 0x0CB61B38, 0x92D28E9B, 
0xE5D5BE0D, 0x7CDCEFB7, 0x0BDBDF21, 0x86D3D2D4, 0xF1D4E242, 0x68DDB3F8, 0x1FDA836E, 0x81BE16CD, 
0xF6B9265B, 0x6FB077E1, 0x18B74777, 0x88085AE6, 0xFF0F6A70, 0x66063BCA, 0x11010B5C, 0x8F659EFF, 
0xF862AE69, 0x616BFFD3, 0x166CCF45, 0xA00AE278, 0xD70DD2EE, 0x4E048354, 0x3903B3C2, 0xA7672661, 
0xD06016F7, 0x4969474D, 0x3E6E77DB, 0xAED16A4A, 0xD9D65ADC, 0x40DF0B66, 0x37D83BF0, 0xA9BCAE53, 
0xDEBB9EC5, 0x47B2CF7F, 0x30B5FFE9, 0xBDBDF21C, 0xCABAC28A, 0x53B39330, 0x24B4A3A6, 0xBAD03605, 
0xCDD70693, 0x54DE5729, 0x23D967BF, 0xB3667A2E, 0xC4614AB8, 0x5D681B02, 0x2A6F2B94, 0xB40BBE37, 
0xC30C8EA1, 0x5A05DF1B, 0x2D02EF8D]

/-- Function `CalculateCrc32NoComp`: byte-wise CRC update, no pre/post complement.
`Crc = (Crc >> 8) ^ mCrcTable[(UINT8)Crc ^ *Ptr]` for each byte.  `(UINT8)` casts
are `% 256`; all values stay below `2^32` because the table entries do. -/
def calculateCrc32NoComp (crc : Nat) (buffer : List Nat) : Nat :=
  buffer.foldl (fun c b => (c >>> 8) ^^^ mCrcTable.getD ((c % 256) ^^^ (b % 256)) 0) crc

/-- ASCII bytes of a string literal (all our inputs are 7-bit ASCII). -/
def strBytes (s : String) : List Nat :=
  s.data.map Char.toNat


/-! ### Version scanner (`BIOSInfoUpdateSmbiosType0`, lines 1038-1074)

The C `for` loop over `mBiosVersion` runs a four-state machine; we embed it as a
fuelled recursion over the byte list.  One fuel unit is spent per iteration of
the C loop, and each iteration advances `i` by at least one, so fuel
`s.length` never runs out (the `fuel = 0` branch is unreachable then).
The inner `while (SMB_IS_DIGIT (mBiosVersion[i + 1])) i++;` of the overflow
branch becomes `List.dropWhile`.  Lookahead `mBiosVersion[i + 1]` at the end of
the string reads the NUL terminator, hence the `headD 0`. -/

/-- Predicate `SMB_IS_DIGIT` on a byte value. -/
def smbIsDigit (c : Nat) : Bool :=
  decide (48 ≤ c ∧ c ≤ 57)

/-- One C-loop execution from state `st` with accumulators `Value[0] = v0`,
`Value[1] = v1` and the remaining bytes; returns the final
`(State, Value[0], Value[1])`.  States: 0 searching, 1 accumulating major,
2 boundary dot check, 3 accumulating minor, 4 done.  State 2 never survives an
iteration in the C code (it is only reached by fall-through); the top-level
state-2 branch here is the same `case 2:` code and is dead. -/
def scanLoop : Nat → Nat → Nat → Nat → List Nat → Nat × Nat × Nat
  | _, st, v0, v1, [] => (st, v0, v1)
  | 0, st, v0, v1, _ :: _ => (st, v0, v1)
  | fuel + 1, st, v0, v1, c :: rest =>
    if 4 ≤ st then (st, v0, v1)
    else if st = 0 then
      if smbIsDigit c then
        -- case 0: reset accumulators, enter state 1, fall through re-consuming c
        let val := 0 * 10 + (c - 48)
        if 255 < val then scanLoop fuel 0 val 0 (rest.dropWhile smbIsDigit)
        else scanLoop fuel 1 val 0 rest
      else scanLoop fuel 0 v0 v1 rest
    else if st = 1 then
      if smbIsDigit c then
        let val := v0 * 10 + (c - 48)
        if 255 < val then scanLoop fuel 0 val v1 (rest.dropWhile smbIsDigit)
        else scanLoop fuel 1 val v1 rest
      else
        -- State++ to 2, fall through to the dot check on the same byte
        if c = 46 ∧ smbIsDigit (rest.headD 0) then scanLoop fuel 3 v0 v1 rest
        else scanLoop fuel 0 v0 v1 rest
    else if st = 2 then
      if c = 46 ∧ smbIsDigit (rest.headD 0) then scanLoop fuel 3 v0 v1 rest
      else scanLoop fuel 0 v0 v1 rest
    else -- st = 3
      if smbIsDigit c then
        let val := v1 * 10 + (c - 48)
        if 255 < val then scanLoop fuel 0 v0 val (rest.dropWhile smbIsDigit)
        else scanLoop fuel 3 v0 val rest
      else scanLoop fuel 4 v0 v1 rest

/-- The scanner as a function: runs the loop from state 0 on the whole string
and, when it ends in an accepting state (3 or 4), returns the pair of values as
stored by the `(UINT8)` narrowing casts into `SystemBiosMajorRelease` /
`SystemBiosMinorRelease`. -/
def scan_version (s : List Nat) : Option (Nat × Nat) :=
  match scanLoop s.length 0 0 0 s with
  | (st, v0, v1) => if st = 3 ∨ st = 4 then some (v0 % 256, v1 % 256) else none


/-! ### Record builder (`LogSmbiosData`, lines 927-1005)

A C string (`CHAR8 *`) is a list of byte values; its content is everything
before the first NUL, so `AsciiStrSize` is `takeWhile (≠ 0) |>.length + 1` and
`CopyMem (Str, s, StringSize)` copies that content plus one NUL.  A string pack
is a NULL-terminated array of such pointers, modelled as `List (List Nat)`.
(The `StringPack == NULL` case of the size computation is not modelled: the
append loop dereferences `StringPack` unconditionally, and every call site in
the driver passes a non-NULL array.) -/

/-- Bytes `AsciiStrSize` counts for one string: content before the first NUL,
plus the terminator. -/
def asciiStrContent (s : List Nat) : List Nat :=
  s.takeWhile (fun b => b ≠ 0)

/-- Byte count `AsciiStrSize`. -/
def asciiStrSize (s : List Nat) : Nat :=
  (asciiStrContent s).length + 1

/-- The `Size` computation of `LogSmbiosData` for a non-NULL string pack:
`Size = Template->Length`; the loop adds `AsciiStrSize` of each string; if
`StringPack[0] == NULL` one more byte; then the final terminator byte. -/
def logSmbiosSize (templateLen : Nat) (stringPack : List (List Nat)) : Nat :=
  templateLen + stringPack.foldl (fun acc s => acc + asciiStrSize s) 0
    + (if stringPack = [] then 1 else 0) + 1

/-- The blob `LogSmbiosData` builds: a zero-allocated buffer of `logSmbiosSize`
bytes whose prefix is filled by the sequential `CopyMem`s (template, then each
string with its terminator) and the final `*Str = 0`; the rest of the buffer
stays zero. -/
def logSmbiosBlob (template : List Nat) (stringPack : List (List Nat)) : List Nat :=
  let size := logSmbiosSize template.length stringPack
  let written := template
    ++ stringPack.flatMap (fun s => asciiStrContent s ++ [0])
    ++ [0]
  written ++ List.replicate (size - written.length) 0


/-- Split a string pack area back into NUL-delimited runs: accumulate bytes of
the current run; a NUL ends the run, and an empty run (i.e. the second NUL of
a double NUL) ends the scan. -/
def splitAux : List Nat → List Nat → List (List Nat)
  | _, [] => []
  | cur, c :: rest =>
    if c = 0 then (if cur = [] then [] else cur.reverse :: splitAux [] rest)
    else splitAux (c :: cur) rest

/-- NUL-delimited runs of a byte list, stopping at the empty run. -/
def splitNulRuns (bs : List Nat) : List (List Nat) :=
  splitAux [] bs


/-- Status values `LogSmbiosData` can return, with the registry rejection code
carried through verbatim. -/
inductive LogStatus where
  | ok (handle : Nat)
  | locateError (code : Nat)
  | outOfResources
  | addError (code : Nat)
deriving DecidableEq

/-- Observable effects of one `LogSmbiosData` call: the returned status, the
blobs submitted to the registry's `Add`, the successful insertions, and the
pool allocation/free counts. -/
structure LogTrace where
  status : LogStatus
  submitted : List (List Nat)
  inserted : List (Nat × List Nat)
  allocated : Nat
  freed : Nat
deriving DecidableEq

/-- Control flow of `LogSmbiosData` with its collaborators as oracles:
`locate` is `gBS->LocateProtocol` (`none` = success, `some code` = failure,
returning that status immediately); `allocOk` is whether `AllocateZeroPool`
succeeds (else `EFI_OUT_OF_RESOURCES`); `add` is the registry's `Smbios->Add`
on the finished blob (`Sum.inl code` = rejection, `Sum.inr h` = handle
assigned).  On the rejection path the status is returned to the caller as is,
after `FreePool (Record)`. -/
def logSmbiosData (locate : Option Nat) (allocOk : Bool)
    (add : List Nat → Nat ⊕ Nat)
    (template : List Nat) (stringPack : List (List Nat)) : LogTrace :=
  match locate with
  | some code => ⟨.locateError code, [], [], 0, 0⟩
  | none =>
    if !allocOk then ⟨.outOfResources, [], [], 0, 0⟩
    else
      let record := logSmbiosBlob template stringPack
      match add record with
      | .inl code => ⟨.addError code, [record], [], 1, 1⟩
      | .inr h => ⟨.ok h, [record], [(h, record)], 1, 1⟩

/-! ### Type 19 address computation (`MemArrMapInfoUpdateSmbiosType19`, lines 1339-1351)

`StartingAddress` and `EndingAddress` are `UINT32` fields;
`PcdGet64 (PcdSystemMemoryBase)` and `mMemorySize` are `UINT64`.  The quotient
is computed in `UINT64`, truncated to `UINT32` on assignment; the ending
address is `StartingAddress + mMemorySize / 1024 - 1` in `UINT64` arithmetic,
truncated on assignment. -/

/-- The `(StartingAddress, EndingAddress)` pair the Type 19 builder stores. -/
def memArrMapType19Addresses (systemMemoryBase memorySize : Nat) : Nat × Nat :=
  let startingAddress := (systemMemoryBase / 1024) % 2 ^ 32
  let endingAddress :=
    ((startingAddress + memorySize / 1024 + (2 ^ 64 - 1)) % 2 ^ 64) % 2 ^ 32
  (startingAddress, endingAddress)


/-! ### Topic builders and orchestrator (lines 1010-1407)

For the registration-order and handle-linkage claims, a registered record is
abstracted to its SMBIOS type tag together with the handle back-reference
fields its body carries at submission time; all other body fields and strings
are static configuration.  The registry (`EFI_SMBIOS_PROTOCOL`) is an external
collaborator: it is modelled by an arbitrary handle-assignment policy
`assign : Nat → Nat` mapping the insertion index to the `EFI_SMBIOS_HANDLE`
(a `UINT16`, hence the `% 2 ^ 16`) it hands back.  The mutable template
fields that carry handles between topic builders become explicit state. -/

/-- A registered record: its type tag and the handle-valued body fields. -/
inductive SmbiosRec where
  | type0
  | type1
  | type2 (chassisHandle : Nat)
  | type3
  | type4 (l1CacheHandle l2CacheHandle : Nat)
  | type7L1I
  | type7L1D
  | type7L2
  | type9
  | type11
  | type16
  | type17 (memoryArrayHandle : Nat)
  | type19 (memoryArrayHandle : Nat)
  | type32
deriving DecidableEq

/-- The SMBIOS structure type number of a record. -/
def SmbiosRec.tag : SmbiosRec → Nat
  | .type0 => 0
  | .type1 => 1
  | .type2 _ => 2
  | .type3 => 3
  | .type4 _ _ => 4
  | .type7L1I | .type7L1D | .type7L2 => 7
  | .type9 => 9
  | .type11 => 11
  | .type16 => 16
  | .type17 _ => 17
  | .type19 _ => 19
  | .type32 => 32

/-- Driver state: the registry's handle policy, the number of insertions made,
the insertion log (handle and record, in registration order), and the mutable
handle-carrying template fields with their static initializers. -/
structure DriverState where
  assign : Nat → Nat
  count : Nat
  log : List (Nat × SmbiosRec)
  board2ChassisHandle : Nat      -- mBoardInfoType2.ChassisHandle, init 0
  proc4L1CacheHandle : Nat       -- mProcessorInfoType4.L1CacheHandle, init 0xFFFF
  proc4L2CacheHandle : Nat       -- mProcessorInfoType4.L2CacheHandle, init 0xFFFF
  memDev17ArrayHandle : Nat      -- mMemDevInfoType17.MemoryArrayHandle, init 0
  memMap19ArrayHandle : Nat      -- mMemArrMapInfoType19.MemoryArrayHandle, init 0

/-- One successful `LogSmbiosData` call: the registry assigns the next handle
(a `UINT16`), the record is appended to the log, and the handle is returned
(the `DataSmbiosHandle` out-parameter). -/
def logSmbiosRec (rec : SmbiosRec) (s : DriverState) : Nat × DriverState :=
  let handle := s.assign s.count % 2 ^ 16
  (handle, { s with count := s.count + 1, log := s.log ++ [(handle, rec)] })

/-- Builder `BIOSInfoUpdateSmbiosType0` (its registration; version parsing is modelled
by `scan_version` above). -/
def biosInfoUpdateSmbiosType0 (s : DriverState) : DriverState :=
  (logSmbiosRec .type0 s).2

/-- Builder `SysInfoUpdateSmbiosType1` (its registration; serial derivation is
modelled by `sysInfoBoardSerial` below). -/
def sysInfoUpdateSmbiosType1 (s : DriverState) : DriverState :=
  (logSmbiosRec .type1 s).2

/-- Builder `EnclosureInfoUpdateSmbiosType3`: registers Type 3, then stores the
returned handle into `mBoardInfoType2.ChassisHandle` (a `UINT16` cast). -/
def enclosureInfoUpdateSmbiosType3 (s : DriverState) : DriverState :=
  let (smbiosHandle, s1) := logSmbiosRec .type3 s
  { s1 with board2ChassisHandle := smbiosHandle % 2 ^ 16 }

/-- Builder `BoardInfoUpdateSmbiosType2`: registers Type 2 with whatever
`ChassisHandle` currently holds. -/
def boardInfoUpdateSmbiosType2 (s : DriverState) : DriverState :=
  (logSmbiosRec (.type2 s.board2ChassisHandle) s).2

/-- Builder `CacheInfoUpdateSmbiosType7`: registers L1I, then L1D (capturing its handle
into `L1CacheHandle`), then L2 (capturing its handle into `L2CacheHandle`). -/
def cacheInfoUpdateSmbiosType7 (s : DriverState) : DriverState :=
  let s1 := (logSmbiosRec .type7L1I s).2
  let (handleL1D, s2) := logSmbiosRec .type7L1D s1
  let s3 := { s2 with proc4L1CacheHandle := handleL1D % 2 ^ 16 }
  let (handleL2, s4) := logSmbiosRec .type7L2 s3
  { s4 with proc4L2CacheHandle := handleL2 % 2 ^ 16 }

/-- Builder `ProcessorInfoUpdateSmbiosType4`: registers Type 4 with the current cache
handle fields. -/
def processorInfoUpdateSmbiosType4 (s : DriverState) : DriverState :=
  (logSmbiosRec (.type4 s.proc4L1CacheHandle s.proc4L2CacheHandle) s).2

/-- Builder `SysSlotInfoUpdateSmbiosType9`. -/
def sysSlotInfoUpdateSmbiosType9 (s : DriverState) : DriverState :=
  (logSmbiosRec .type9 s).2

/-- Builder `OemStringsUpdateSmbiosType11`. -/
def oemStringsUpdateSmbiosType11 (s : DriverState) : DriverState :=
  (logSmbiosRec .type11 s).2

/-- Builder `PhyMemArrayInfoUpdateSmbiosType16`: registers Type 16, then stores the
returned handle into both `mMemDevInfoType17.MemoryArrayHandle` and
`mMemArrMapInfoType19.MemoryArrayHandle`. -/
def phyMemArrayInfoUpdateSmbiosType16 (s : DriverState) : DriverState :=
  let (memArraySmbiosHandle, s1) := logSmbiosRec .type16 s
  { s1 with memDev17ArrayHandle := memArraySmbiosHandle,
            memMap19ArrayHandle := memArraySmbiosHandle }

/-- Builder `MemDevInfoUpdateSmbiosType17`. -/
def memDevInfoUpdateSmbiosType17 (s : DriverState) : DriverState :=
  (logSmbiosRec (.type17 s.memDev17ArrayHandle) s).2

/-- Builder `MemArrMapInfoUpdateSmbiosType19` (its registration; its address fields are
modelled by `memArrMapType19Addresses` above). -/
def memArrMapInfoUpdateSmbiosType19 (s : DriverState) : DriverState :=
  (logSmbiosRec (.type19 s.memMap19ArrayHandle) s).2

/-- Builder `BootInfoUpdateSmbiosType32`. -/
def bootInfoUpdateSmbiosType32 (s : DriverState) : DriverState :=
  (logSmbiosRec .type32 s).2

/-- Initial driver state: empty registry, template fields at their static
initializer values. -/
def initialDriverState (assign : Nat → Nat) : DriverState :=
  { assign := assign, count := 0, log := []
    board2ChassisHandle := 0
    proc4L1CacheHandle := 0xFFFF
    proc4L2CacheHandle := 0xFFFF
    memDev17ArrayHandle := 0
    memMap19ArrayHandle := 0 }

/-- Orchestrator `PlatformSmbiosDriverEntryPoint`: the fixed topic-builder sequence. -/
def platformSmbiosDriverEntryPoint (assign : Nat → Nat) : DriverState :=
  bootInfoUpdateSmbiosType32
    (memArrMapInfoUpdateSmbiosType19
      (memDevInfoUpdateSmbiosType17
        (phyMemArrayInfoUpdateSmbiosType16
          (oemStringsUpdateSmbiosType11
            (sysSlotInfoUpdateSmbiosType9
              (processorInfoUpdateSmbiosType4
                (cacheInfoUpdateSmbiosType7
                  (boardInfoUpdateSmbiosType2
                    (enclosureInfoUpdateSmbiosType3
                      (sysInfoUpdateSmbiosType1
                        (biosInfoUpdateSmbiosType0 (initialDriverState assign))))))))))))

/-! ### Board serial derivation (`SysInfoUpdateSmbiosType1`, lines 1119-1133)

`OtpRead (0x07, 16, OtpData)` fills a 16-byte buffer; the two 8-byte halves
are de-interleaved (`SerialLo[i] = OtpData[2i+1]`, `SerialHi[i] = OtpData[2i]`)
and folded through two chained CRC calls into a `UINT64`.  At the second call
the `UINT64` running value is passed to the `UINT32` `Crc` parameter, hence
the `% 2 ^ 32`. -/

/-- Buffer `SerialLo`: the odd-indexed bytes of the OTP buffer. -/
def serialLo (otpData : List Nat) : List Nat :=
  (List.range 8).map (fun i => otpData.getD (i * 2 + 1) 0)

/-- Buffer `SerialHi`: the even-indexed bytes of the OTP buffer. -/
def serialHi (otpData : List Nat) : List Nat :=
  (List.range 8).map (fun i => otpData.getD (i * 2) 0)

/-- Value `BoardSerial`:
`lo = CalculateCrc32NoComp (0, SerialLo, 8)` in the low 32 bits,
`CalculateCrc32NoComp ((UINT32) lo, SerialHi, 8)` or-ed into the high 32. -/
def sysInfoBoardSerial (otpData : List Nat) : Nat :=
  let boardSerial := calculateCrc32NoComp 0 (serialLo otpData)
  boardSerial ||| (calculateCrc32NoComp (boardSerial % 2 ^ 32) (serialHi otpData)) <<< 32

/-! ### Observers of the registration log -/

/-- The SMBIOS type numbers of the registered records, in registration order. -/
def registrationTags (assign : Nat → Nat) : List Nat :=
  (platformSmbiosDriverEntryPoint assign).log.map (fun e => e.2.tag)

/-- The handle assigned to the first registered record equal to `r`. -/
def loggedHandleOf (r : SmbiosRec) (log : List (Nat × SmbiosRec)) : Option Nat :=
  (log.find? (fun e => e.2 == r)).map (fun e => e.1)

/-- The `ChassisHandle` field of the registered board (Type 2) record. -/
def loggedBoardChassisRef (log : List (Nat × SmbiosRec)) : Option Nat :=
  log.findSome? (fun e => match e.2 with | .type2 ch => some ch | _ => none)

/-- The `L1CacheHandle` field of the registered processor (Type 4) record. -/
def loggedProcL1Ref (log : List (Nat × SmbiosRec)) : Option Nat :=
  log.findSome? (fun e => match e.2 with | .type4 l1 _ => some l1 | _ => none)

/-- The `L2CacheHandle` field of the registered processor (Type 4) record. -/
def loggedProcL2Ref (log : List (Nat × SmbiosRec)) : Option Nat :=
  log.findSome? (fun e => match e.2 with | .type4 _ l2 => some l2 | _ => none)

/-- The `MemoryArrayHandle` field of the registered memory-device (Type 17)
record. -/
def loggedMemDevArrayRef (log : List (Nat × SmbiosRec)) : Option Nat :=
  log.findSome? (fun e => match e.2 with | .type17 h => some h | _ => none)

/-- The `MemoryArrayHandle` field of the registered memory-mapped-address
(Type 19) record. -/
def loggedMemMapArrayRef (log : List (Nat × SmbiosRec)) : Option Nat :=
  log.findSome? (fun e => match e.2 with | .type19 h => some h | _ => none)

/-! ## Supporting lemmas -/

set_option maxRecDepth 8192 in
/-- Every entry of the CRC table is a 32-bit value. -/
theorem mCrcTable_entries_lt : ∀ x ∈ mCrcTable, x < 2 ^ 32 := by
  decide

/-- Lookup `List.getD` on the CRC table is a 32-bit value for any index. -/
theorem mCrcTable_getD_lt (i : Nat) : mCrcTable.getD i 0 < 2 ^ 32 := by
  rw [List.getD_eq_getElem?_getD]
  match h : mCrcTable[i]? with
  | none => simp
  | some x => simpa using mCrcTable_entries_lt _ (List.getElem?_mem h)

/-- The CRC update preserves the 32-bit bound. -/
theorem calculateCrc32NoComp_lt (buffer : List Nat) :
    ∀ crc, crc < 2 ^ 32 → calculateCrc32NoComp crc buffer < 2 ^ 32 := by
  induction buffer with
  | nil => intro crc h; exact h
  | cons b rest ih =>
    intro crc h
    show calculateCrc32NoComp ((crc >>> 8) ^^^ mCrcTable.getD ((crc % 256) ^^^ (b % 256)) 0)
      rest < 2 ^ 32
    apply ih
    apply Nat.xor_lt_two_pow _ (mCrcTable_getD_lt _)
    calc crc >>> 8 ≤ crc := by
          rw [Nat.shiftRight_eq_div_pow]; exact Nat.div_le_self _ _
      _ < 2 ^ 32 := h

/-! ## Claims -/

/-- C1 counterexample: `CalculateCrc32NoComp` with seed 0 over `"123456789"`
does NOT return the standard CRC-32 reference value `0xCBF43926`: the function
performs the table-driven update but omits CRC-32's pre/post complement (the
`NoComp` in its name), so the seed-0 result differs from the standard check
value. -/
theorem crc32_check_value_counterexample :
    calculateCrc32NoComp 0 (strBytes "123456789") ≠ 0xCBF43926 := by
  decide

/-- C1 (amended): for the 9-byte input `"123456789"` with seed 0,
`CalculateCrc32NoComp` returns `0x2DFD2D88`; the table/polynomial is
nevertheless the standard CRC-32 one: seeding with `0xFFFFFFFF` and
complementing the result yields the standard reference value `0xCBF43926`. -/
theorem crc32_check_value_amended :
    calculateCrc32NoComp 0 (strBytes "123456789") = 0x2DFD2D88
    ∧ calculateCrc32NoComp 0xFFFFFFFF (strBytes "123456789") ^^^ 0xFFFFFFFF = 0xCBF43926 := by
  constructor
  · decide
  · decide

/-- C7: the 64-bit board serial de-interleaves the 16-byte OTP buffer into the
odd-indexed bytes (`SerialLo`) and the even-indexed bytes (`SerialHi`); its low
32 bits are `CRC32(0, SerialLo)` and its high 32 bits are the CRC32 of
`SerialHi` seeded with that first result. -/
theorem board_serial_derivation (otpData : List Nat) :
    sysInfoBoardSerial otpData % 2 ^ 32 = calculateCrc32NoComp 0 (serialLo otpData)
    ∧ sysInfoBoardSerial otpData / 2 ^ 32 =
        calculateCrc32NoComp (calculateCrc32NoComp 0 (serialLo otpData)) (serialHi otpData)
    ∧ serialLo otpData = [otpData.getD 1 0, otpData.getD 3 0, otpData.getD 5 0,
        otpData.getD 7 0, otpData.getD 9 0, otpData.getD 11 0, otpData.getD 13 0,
        otpData.getD 15 0]
    ∧ serialHi otpData = [otpData.getD 0 0, otpData.getD 2 0, otpData.getD 4 0,
        otpData.getD 6 0, otpData.getD 8 0, otpData.getD 10 0, otpData.getD 12 0,
        otpData.getD 14 0] := by
  have hlo : calculateCrc32NoComp 0 (serialLo otpData) < 2 ^ 32 :=
    calculateCrc32NoComp_lt _ 0 (by omega)
  have hmod : calculateCrc32NoComp 0 (serialLo otpData) % 2 ^ 32 =
      calculateCrc32NoComp 0 (serialLo otpData) := Nat.mod_eq_of_lt hlo
  have hhi : calculateCrc32NoComp (calculateCrc32NoComp 0 (serialLo otpData))
      (serialHi otpData) < 2 ^ 32 := calculateCrc32NoComp_lt _ _ hlo
  have hpack : sysInfoBoardSerial otpData =
      2 ^ 32 * calculateCrc32NoComp (calculateCrc32NoComp 0 (serialLo otpData))
        (serialHi otpData) + calculateCrc32NoComp 0 (serialLo otpData) := by
    show calculateCrc32NoComp 0 (serialLo otpData) |||
        (calculateCrc32NoComp (calculateCrc32NoComp 0 (serialLo otpData) % 2 ^ 32)
          (serialHi otpData)) <<< 32 = _
    rw [hmod, Nat.shiftLeft_eq, Nat.lor_comm, Nat.mul_comm,
      ← Nat.mul_add_lt_is_or hlo]
  refine ⟨?_, ?_, ?_, ?_⟩
  · rw [hpack, Nat.mul_add_mod, Nat.mod_eq_of_lt hlo]
  · rw [hpack, Nat.mul_add_div (by omega), Nat.div_eq_of_lt hlo, Nat.add_zero]
  · rfl
  · rfl

/-- Scanner invariant: starting from a state whose accumulators satisfy the
255 bound (vacuously so in state 0), if the loop ends in a state ≥ 1 then both
accumulators are at most 255.  Every transition into or through states 1-4
either resets the accumulators, extends one of them only when the result stays
≤ 255, or abandons the candidate back to state 0. -/
theorem scanLoop_accept_le : ∀ (fuel st v0 v1 : Nat) (cs : List Nat),
    (1 ≤ st → v0 ≤ 255 ∧ v1 ≤ 255) →
    1 ≤ (scanLoop fuel st v0 v1 cs).1 →
    (scanLoop fuel st v0 v1 cs).2.1 ≤ 255 ∧ (scanLoop fuel st v0 v1 cs).2.2 ≤ 255 := by
  intro fuel
  induction fuel with
  | zero =>
    intro st v0 v1 cs hinv hge
    cases cs <;> exact hinv hge
  | succ fuel ih =>
    intro st v0 v1 cs hinv hge
    cases cs with
    | nil => exact hinv hge
    | cons c rest =>
      simp only [scanLoop] at hge ⊢
      split_ifs at hge ⊢ <;>
        first
          | exact hinv hge
          | (refine ih _ _ _ _ ?_ hge
             intro hst
             have hold := hinv (by omega)
             exact ⟨by omega, by omega⟩)
          | (refine ih _ _ _ _ ?_ hge
             intro hst
             exact ⟨by omega, by omega⟩)

/-- C10: whenever the version scan ends in an accepting state (3 or 4), both
accumulated values are at most 255, so the `(UINT8)` narrowing casts that
store them into `SystemBiosMajorRelease` / `SystemBiosMinorRelease` lose no
information. -/
theorem scanner_accept_bounds (s : List Nat)
    (haccept : (scanLoop s.length 0 0 0 s).1 = 3 ∨ (scanLoop s.length 0 0 0 s).1 = 4) :
    (scanLoop s.length 0 0 0 s).2.1 ≤ 255 ∧ (scanLoop s.length 0 0 0 s).2.2 ≤ 255
    ∧ (scanLoop s.length 0 0 0 s).2.1 % 256 = (scanLoop s.length 0 0 0 s).2.1
    ∧ (scanLoop s.length 0 0 0 s).2.2 % 256 = (scanLoop s.length 0 0 0 s).2.2 := by
  have hge : 1 ≤ (scanLoop s.length 0 0 0 s).1 := by
    rcases haccept with h | h <;> omega
  have h := scanLoop_accept_le s.length 0 0 0 s (by intro h; exact absurd h (by decide)) hge
  exact ⟨h.1, h.2, Nat.mod_eq_of_lt (by omega), Nat.mod_eq_of_lt (by omega)⟩

/-- C10 witness: the scan of `"EDK2-DEV 1.23"` ends in an accepting state, and
the bounds hold there. -/
theorem scanner_accept_bounds_witness :
    ((scanLoop (strBytes "EDK2-DEV 1.23").length 0 0 0 (strBytes "EDK2-DEV 1.23")).1 = 3
      ∨ (scanLoop (strBytes "EDK2-DEV 1.23").length 0 0 0 (strBytes "EDK2-DEV 1.23")).1 = 4)
    ∧ (scanLoop (strBytes "EDK2-DEV 1.23").length 0 0 0 (strBytes "EDK2-DEV 1.23")).2.1 ≤ 255
    ∧ (scanLoop (strBytes "EDK2-DEV 1.23").length 0 0 0 (strBytes "EDK2-DEV 1.23")).2.2 ≤ 255
    ∧ (scanLoop (strBytes "EDK2-DEV 1.23").length 0 0 0 (strBytes "EDK2-DEV 1.23")).2.1 % 256
        = (scanLoop (strBytes "EDK2-DEV 1.23").length 0 0 0 (strBytes "EDK2-DEV 1.23")).2.1
    ∧ (scanLoop (strBytes "EDK2-DEV 1.23").length 0 0 0 (strBytes "EDK2-DEV 1.23")).2.2 % 256
        = (scanLoop (strBytes "EDK2-DEV 1.23").length 0 0 0 (strBytes "EDK2-DEV 1.23")).2.2 := by
  refine ⟨by decide, ?_⟩
  have h := scanner_accept_bounds (strBytes "EDK2-DEV 1.23") (by decide)
  exact ⟨h.1, h.2.1, h.2.2.1, h.2.2.2⟩

/-- C3: in the accumulating states the scanner abandons a digit run whose
accumulated value exceeds 255, skips the rest of that run and resumes
searching from state 0; in particular scanning `"Firmware X83737.1 v1.23"`
yields major 1 and minor 23, not 83737 and 1. -/
theorem scanner_overflow_abandons :
    (∀ fuel v0 v1 c rest, smbIsDigit c = true → 255 < v0 * 10 + (c - 48) →
        scanLoop (fuel + 1) 1 v0 v1 (c :: rest) =
          scanLoop fuel 0 (v0 * 10 + (c - 48)) v1 (rest.dropWhile smbIsDigit))
    ∧ (∀ fuel v0 v1 c rest, smbIsDigit c = true → 255 < v1 * 10 + (c - 48) →
        scanLoop (fuel + 1) 3 v0 v1 (c :: rest) =
          scanLoop fuel 0 v0 (v1 * 10 + (c - 48)) (rest.dropWhile smbIsDigit))
    ∧ scan_version (strBytes "Firmware X83737.1 v1.23") = some (1, 23) := by
  refine ⟨?_, ?_, by decide⟩
  · intro fuel v0 v1 c rest hd hof
    simp only [scanLoop]
    simp [hd, hof]
  · intro fuel v0 v1 c rest hd hof
    simp only [scanLoop]
    simp [hd, hof]

/-- C3 witness: instantiation of the overflow transitions at the digit run of
`"X83737"` (accumulated 83, next digit `'7'`), plus the concrete scan. -/
theorem scanner_overflow_abandons_witness :
    smbIsDigit 55 = true ∧ 255 < 83 * 10 + (55 - 48)
    ∧ scanLoop (0 + 1) 1 83 0 (55 :: []) =
        scanLoop 0 0 (83 * 10 + (55 - 48)) 0 (List.dropWhile smbIsDigit [])
    ∧ scanLoop (0 + 1) 3 1 83 (55 :: []) =
        scanLoop 0 0 1 (83 * 10 + (55 - 48)) (List.dropWhile smbIsDigit [])
    ∧ scan_version (strBytes "Firmware X83737.1 v1.23") = some (1, 23) :=
  ⟨by decide, by decide,
    scanner_overflow_abandons.1 0 83 0 55 [] (by decide) (by decide),
    scanner_overflow_abandons.2.1 0 1 83 55 [] (by decide) (by decide),
    scanner_overflow_abandons.2.2⟩

/-- A NUL-free string is its own `AsciiStrSize` content. -/
theorem asciiStrContent_of_nulFree (s : List Nat) (h : (0 : Nat) ∉ s) :
    asciiStrContent s = s := by
  induction s with
  | nil => rfl
  | cons c rest ih =>
    have hc : c ≠ 0 := fun e => h (e ▸ List.mem_cons_self c rest)
    have hrest : (0 : Nat) ∉ rest := fun e => h (List.mem_cons_of_mem c e)
    simp only [asciiStrContent, List.takeWhile_cons]
    rw [if_pos (by simpa using hc)]
    exact congrArg (c :: ·) (ih hrest)

/-- The size-computation loop as a sum. -/
theorem foldl_asciiStrSize (stringPack : List (List Nat)) :
    ∀ a, stringPack.foldl (fun acc s => acc + asciiStrSize s) a
      = a + (stringPack.map asciiStrSize).sum := by
  induction stringPack with
  | nil => intro a; simp
  | cons s rest ih =>
    intro a
    simp only [List.foldl_cons, List.map_cons, List.sum_cons, ih]
    omega

/-- Length of the string-pack area (each string's content plus its NUL). -/
theorem pack_area_length (stringPack : List (List Nat)) :
    (stringPack.flatMap (fun s => asciiStrContent s ++ [0])).length
      = (stringPack.map asciiStrSize).sum := by
  induction stringPack with
  | nil => rfl
  | cons s rest ih =>
    rw [List.flatMap_cons, List.length_append, List.length_append, ih,
      List.map_cons, List.sum_cons]
    simp [asciiStrSize]

/-- The blob really has the computed size (the zero padding fills any gap). -/
theorem logSmbiosBlob_length (template : List Nat) (stringPack : List (List Nat)) :
    (logSmbiosBlob template stringPack).length = logSmbiosSize template.length stringPack := by
  have hsize : logSmbiosSize template.length stringPack
      = template.length + (stringPack.map asciiStrSize).sum
        + (if stringPack = [] then 1 else 0) + 1 := by
    simp [logSmbiosSize, foldl_asciiStrSize]
  have hwritten : (template ++ stringPack.flatMap (fun s => asciiStrContent s ++ [0])
      ++ [0]).length = template.length + (stringPack.map asciiStrSize).sum + 1 := by
    rw [List.length_append, List.length_append, pack_area_length]
    simp
  show (_ ++ List.replicate _ _).length = _
  rw [List.length_append, List.length_replicate, hwritten, hsize]
  split <;> omega

/-- C2 counterexample: for body `[1,2,3,4]` and the empty string list the blob
is the body plus a double NUL (6 bytes), not body length + (empty sum) + 1 = 5
as the claim's formula demands for the empty list. -/
theorem record_length_counterexample :
    (logSmbiosBlob [1, 2, 3, 4] []).length
      ≠ [1, 2, 3, 4].length + (([] : List (List Nat)).map (fun s => s.length + 1)).sum + 1 := by
  decide

/-- C2 (amended): for every body and every non-empty list of (NUL-free)
strings the blob's length is body length + Σ (string length + 1) + 1; for the
empty string list it is body length + 2 (the double NUL). -/
theorem record_length_amended (template : List Nat) (stringPack : List (List Nat))
    (hnul : ∀ s ∈ stringPack, (0 : Nat) ∉ s) :
    (stringPack ≠ [] →
      (logSmbiosBlob template stringPack).length
        = template.length + (stringPack.map (fun s => s.length + 1)).sum + 1)
    ∧ (logSmbiosBlob template []).length = template.length + 2 := by
  have hmap : stringPack.map asciiStrSize = stringPack.map (fun s => s.length + 1) := by
    apply List.map_congr_left
    intro s hs
    simp [asciiStrSize, asciiStrContent_of_nulFree s (hnul s hs)]
  constructor
  · intro hne
    rw [logSmbiosBlob_length]
    have : logSmbiosSize template.length stringPack
        = template.length + (stringPack.map asciiStrSize).sum
          + (if stringPack = [] then 1 else 0) + 1 := by
      simp [logSmbiosSize, foldl_asciiStrSize]
    rw [this, hmap, if_neg hne]
  · rw [logSmbiosBlob_length]
    simp [logSmbiosSize]

/-- C2 witness: the amended statement at body `[1,2]` and string pack
`["AB"]`. -/
theorem record_length_amended_witness :
    (∀ s ∈ [[65, 66]], (0 : Nat) ∉ s)
    ∧ (([[65, 66]] : List (List Nat)) ≠ [] →
        (logSmbiosBlob [1, 2] [[65, 66]]).length
          = [1, 2].length + (([[65, 66]] : List (List Nat)).map (fun s => s.length + 1)).sum + 1)
    ∧ (logSmbiosBlob [1, 2] []).length = [1, 2].length + 2 :=
  ⟨by decide,
    (record_length_amended [1, 2] [[65, 66]] (by decide)).1,
    (record_length_amended [1, 2] [[65, 66]] (by decide)).2⟩

/-- Scanning one NUL-terminated run: with a NUL-free run `s` that is non-empty
unless bytes are already accumulated, the splitter emits `cur.reverse ++ s`
and continues after the NUL. -/
theorem splitAux_run (rest : List Nat) : ∀ (s cur : List Nat), (0 : Nat) ∉ s →
    (cur = [] → s ≠ []) →
    splitAux cur (s ++ 0 :: rest) = (cur.reverse ++ s) :: splitAux [] rest := by
  intro s
  induction s with
  | nil =>
    intro cur _ hne
    have hcur : cur ≠ [] := fun e => hne e rfl
    simp [splitAux, hcur]
  | cons c s' ih =>
    intro cur hnul _
    have hc : c ≠ 0 := fun e => hnul (e ▸ List.mem_cons_self c s')
    have hs' : (0 : Nat) ∉ s' := fun e => hnul (List.mem_cons_of_mem c e)
    simp only [List.cons_append, splitAux, if_neg hc, List.append_eq]
    rw [ih (c :: cur) hs' (by simp)]
    simp

/-- Splitting the serialized string pack (with its final terminator)
reconstructs the pack, provided every string is non-empty and NUL-free. -/
theorem splitNulRuns_pack (stringPack : List (List Nat))
    (h : ∀ s ∈ stringPack, s ≠ [] ∧ (0 : Nat) ∉ s) :
    splitNulRuns (stringPack.flatMap (fun s => asciiStrContent s ++ [0]) ++ [0])
      = stringPack := by
  induction stringPack with
  | nil => rfl
  | cons s rest ih =>
    have hs := h s (List.mem_cons_self s rest)
    have hrest : ∀ t ∈ rest, t ≠ [] ∧ (0 : Nat) ∉ t :=
      fun t ht => h t (List.mem_cons_of_mem s ht)
    rw [List.flatMap_cons, asciiStrContent_of_nulFree s hs.2]
    rw [List.append_assoc, List.append_assoc, List.singleton_append]
    show splitAux [] (s ++ 0 :: (rest.flatMap (fun t => asciiStrContent t ++ [0]) ++ [0]))
      = s :: rest
    rw [splitAux_run _ s [] hs.2 (fun _ => hs.1)]
    rw [List.reverse_nil, List.nil_append]
    exact congrArg (s :: ·) (ih hrest)

/-- C6 counterexample: for body `[7]` and the string list containing one empty
string, the blob's string area is a bare double NUL, and splitting it yields
the empty list, not the input list `[""]`. -/
theorem record_roundtrip_counterexample :
    splitNulRuns ((logSmbiosBlob [7] [[]]).drop [7].length) ≠ [([] : List Nat)] := by
  decide

/-- C6 (amended): the blob for the empty string list is the body followed by
exactly two NUL bytes, and for any list of non-empty NUL-free strings,
splitting the blob after the body into NUL-delimited runs reconstructs the
input string list, in order. -/
theorem record_roundtrip_amended (template : List Nat) (stringPack : List (List Nat))
    (h : ∀ s ∈ stringPack, s ≠ [] ∧ (0 : Nat) ∉ s) :
    logSmbiosBlob template [] = template ++ [0, 0]
    ∧ splitNulRuns ((logSmbiosBlob template stringPack).drop template.length)
        = stringPack := by
  have hblob : ∀ sp : List (List Nat), logSmbiosBlob template sp
      = (template ++ sp.flatMap (fun s => asciiStrContent s ++ [0]) ++ [0])
        ++ List.replicate (logSmbiosSize template.length sp
            - (template ++ sp.flatMap (fun s => asciiStrContent s ++ [0]) ++ [0]).length) 0 :=
    fun _ => rfl
  have hempty : logSmbiosBlob template [] = template ++ [0, 0] := by
    rw [hblob]
    have h1 : logSmbiosSize template.length []
        - (template ++ ([] : List (List Nat)).flatMap (fun s => asciiStrContent s ++ [0])
            ++ [0]).length = 1 := by
      simp [logSmbiosSize]
    rw [h1]
    simp
  refine ⟨hempty, ?_⟩
  by_cases hsp : stringPack = []
  · subst hsp
    rw [hempty, List.drop_left' rfl]
    rfl
  · have h1 : logSmbiosSize template.length stringPack
        - (template ++ stringPack.flatMap (fun s => asciiStrContent s ++ [0])
            ++ [0]).length = 0 := by
      have hs : logSmbiosSize template.length stringPack
          = template.length + (stringPack.map asciiStrSize).sum
            + (if stringPack = [] then 1 else 0) + 1 := by
        simp [logSmbiosSize, foldl_asciiStrSize]
      have hw : (template ++ stringPack.flatMap (fun s => asciiStrContent s ++ [0])
          ++ [0]).length = template.length + (stringPack.map asciiStrSize).sum + 1 := by
        rw [List.length_append, List.length_append, pack_area_length]
        simp
      rw [hs, hw, if_neg hsp]
      omega
    rw [hblob, h1]
    simp only [List.replicate_zero, List.append_nil]
    rw [List.append_assoc, List.drop_left' rfl]
    exact splitNulRuns_pack stringPack h

/-- C6 witness: the amended statement at body `[9]` and string pack
`["AB", "C"]`. -/
theorem record_roundtrip_amended_witness :
    (∀ s ∈ [[65, 66], [67]], s ≠ [] ∧ (0 : Nat) ∉ s)
    ∧ logSmbiosBlob [9] [] = [9] ++ [0, 0]
    ∧ splitNulRuns ((logSmbiosBlob [9] [[65, 66], [67]]).drop [9].length)
        = [[65, 66], [67]] :=
  ⟨by decide,
    (record_roundtrip_amended [9] [[65, 66], [67]] (by decide)).1,
    (record_roundtrip_amended [9] [[65, 66], [67]] (by decide)).2⟩

/-- C8: if allocation fails, `LogSmbiosData` returns `EFI_OUT_OF_RESOURCES`
and nothing is submitted or inserted; if the registry rejects the submission,
that status is returned to the caller without retry (a single submission), no
insertion happens, and the allocated buffer is freed; on every path at most
one insertion (and one submission) occurs per call. -/
theorem logSmbiosData_error_handling (locate : Option Nat) (allocOk : Bool)
    (add : List Nat → Nat ⊕ Nat) (template : List Nat) (stringPack : List (List Nat)) :
    (locate = none → allocOk = false →
      logSmbiosData locate allocOk add template stringPack
        = ⟨.outOfResources, [], [], 0, 0⟩)
    ∧ (∀ code, locate = none → allocOk = true →
        add (logSmbiosBlob template stringPack) = Sum.inl code →
        (logSmbiosData locate allocOk add template stringPack).status = .addError code
        ∧ (logSmbiosData locate allocOk add template stringPack).inserted = []
        ∧ (logSmbiosData locate allocOk add template stringPack).submitted
            = [logSmbiosBlob template stringPack]
        ∧ (logSmbiosData locate allocOk add template stringPack).allocated
            = (logSmbiosData locate allocOk add template stringPack).freed)
    ∧ (logSmbiosData locate allocOk add template stringPack).inserted.length ≤ 1
    ∧ (logSmbiosData locate allocOk add template stringPack).submitted.length ≤ 1 := by
  refine ⟨?_, ?_, ?_⟩
  · rintro rfl rfl
    rfl
  · rintro code rfl rfl hadd
    simp [logSmbiosData, hadd]
  · cases locate with
    | some code => simp [logSmbiosData]
    | none =>
      cases allocOk with
      | false => simp [logSmbiosData]
      | true =>
        cases hadd : add (logSmbiosBlob template stringPack) <;>
          simp [logSmbiosData, hadd]

/-- C8 witness: a failing allocator and a rejecting registry at concrete
inputs. -/
theorem logSmbiosData_error_handling_witness :
    logSmbiosData none false (fun _ => Sum.inl 5) [1] []
      = ⟨.outOfResources, [], [], 0, 0⟩
    ∧ ((logSmbiosData none true (fun _ => Sum.inl 5) [1] []).status = .addError 5
        ∧ (logSmbiosData none true (fun _ => Sum.inl 5) [1] []).inserted = []
        ∧ (logSmbiosData none true (fun _ => Sum.inl 5) [1] []).submitted
            = [logSmbiosBlob [1] []]
        ∧ (logSmbiosData none true (fun _ => Sum.inl 5) [1] []).allocated
            = (logSmbiosData none true (fun _ => Sum.inl 5) [1] []).freed) :=
  ⟨(logSmbiosData_error_handling none false (fun _ => Sum.inl 5) [1] []).1 rfl rfl,
    (logSmbiosData_error_handling none true (fun _ => Sum.inl 5) [1] []).2.1 5 rfl rfl rfl⟩

/-- C4: in every execution of the orchestrator entry point (whatever handles
the registry assigns), the chassis (Type 3) record is registered strictly
before the board (Type 2) record, every cache (Type 7) record strictly before
the processor (Type 4) record, and the memory-array (Type 16) record strictly
before both the memory-device (Type 17) and memory-mapped-address (Type 19)
records. -/
theorem orchestrator_registration_order (assign : Nat → Nat) :
    (∀ i ∈ List.range (registrationTags assign).length,
      ∀ j ∈ List.range (registrationTags assign).length,
        (registrationTags assign).getD i 0 = 3 →
        (registrationTags assign).getD j 0 = 2 → i < j)
    ∧ (∀ i ∈ List.range (registrationTags assign).length,
        ∀ j ∈ List.range (registrationTags assign).length,
          (registrationTags assign).getD i 0 = 7 →
          (registrationTags assign).getD j 0 = 4 → i < j)
    ∧ (∀ i ∈ List.range (registrationTags assign).length,
        ∀ j ∈ List.range (registrationTags assign).length,
          (registrationTags assign).getD i 0 = 16 →
          (registrationTags assign).getD j 0 = 17 → i < j)
    ∧ (∀ i ∈ List.range (registrationTags assign).length,
        ∀ j ∈ List.range (registrationTags assign).length,
          (registrationTags assign).getD i 0 = 16 →
          (registrationTags assign).getD j 0 = 19 → i < j) := by
  have htags : registrationTags assign
      = [0, 1, 3, 2, 7, 7, 7, 4, 9, 11, 16, 17, 19, 32] := rfl
  rw [htags]
  decide

/-- C4 witness: the orderings at the identity handle policy, at the indices of
the producer/consumer records. -/
theorem orchestrator_registration_order_witness :
    (2 : Nat) < 3 ∧ (6 : Nat) < 7 ∧ (10 : Nat) < 11 ∧ (10 : Nat) < 12 :=
  ⟨(orchestrator_registration_order (fun n => n)).1 2 (by decide) 3
      (by decide) (by decide) (by decide),
    (orchestrator_registration_order (fun n => n)).2.1 6 (by decide) 7
      (by decide) (by decide) (by decide),
    (orchestrator_registration_order (fun n => n)).2.2.1 10 (by decide) 11
      (by decide) (by decide) (by decide),
    (orchestrator_registration_order (fun n => n)).2.2.2 10 (by decide) 12
      (by decide) (by decide) (by decide)⟩

/-- C5: in every execution of the orchestrator, each handle back-reference
field stored in a consumer record equals the handle the registry assigned to
its producer record: the board record's `ChassisHandle` is the chassis
record's handle, the processor record's `L1CacheHandle` / `L2CacheHandle` are
the handles of the L1-data and L2 cache records, and the `MemoryArrayHandle`
fields of the memory-device and memory-mapped-address records are the
memory-array record's handle. -/
theorem handle_backreferences (assign : Nat → Nat) :
    loggedBoardChassisRef (platformSmbiosDriverEntryPoint assign).log
      = loggedHandleOf .type3 (platformSmbiosDriverEntryPoint assign).log
    ∧ loggedProcL1Ref (platformSmbiosDriverEntryPoint assign).log
        = loggedHandleOf .type7L1D (platformSmbiosDriverEntryPoint assign).log
    ∧ loggedProcL2Ref (platformSmbiosDriverEntryPoint assign).log
        = loggedHandleOf .type7L2 (platformSmbiosDriverEntryPoint assign).log
    ∧ loggedMemDevArrayRef (platformSmbiosDriverEntryPoint assign).log
        = loggedHandleOf .type16 (platformSmbiosDriverEntryPoint assign).log
    ∧ loggedMemMapArrayRef (platformSmbiosDriverEntryPoint assign).log
        = loggedHandleOf .type16 (platformSmbiosDriverEntryPoint assign).log := by
  have hlog : (platformSmbiosDriverEntryPoint assign).log
      = [(assign 0 % 2 ^ 16, .type0), (assign 1 % 2 ^ 16, .type1),
          (assign 2 % 2 ^ 16, .type3),
          (assign 3 % 2 ^ 16, .type2 (assign 2 % 2 ^ 16 % 2 ^ 16)),
          (assign 4 % 2 ^ 16, .type7L1I), (assign 5 % 2 ^ 16, .type7L1D),
          (assign 6 % 2 ^ 16, .type7L2),
          (assign 7 % 2 ^ 16, .type4 (assign 5 % 2 ^ 16 % 2 ^ 16)
            (assign 6 % 2 ^ 16 % 2 ^ 16)),
          (assign 8 % 2 ^ 16, .type9), (assign 9 % 2 ^ 16, .type11),
          (assign 10 % 2 ^ 16, .type16),
          (assign 11 % 2 ^ 16, .type17 (assign 10 % 2 ^ 16)),
          (assign 12 % 2 ^ 16, .type19 (assign 10 % 2 ^ 16)),
          (assign 13 % 2 ^ 16, .type32)] := rfl
  rw [hlog]
  have hmm : ∀ n : Nat, n % 2 ^ 16 % 2 ^ 16 = n % 2 ^ 16 :=
    fun n => Nat.mod_mod_of_dvd n dvd_rfl
  refine ⟨?_, ?_, ?_, ?_, ?_⟩ <;>
    simp [loggedBoardChassisRef, loggedProcL1Ref, loggedProcL2Ref,
      loggedMemDevArrayRef, loggedMemMapArrayRef, loggedHandleOf,
      List.findSome?_cons, List.find?_cons, hmm]

/-- C9: the memory-mapped-address record expresses addresses in kilobyte
units: whenever the kilobyte quantities fit in the `UINT32` fields,
`StartingAddress` is the base physical address / 1024 and `EndingAddress` is
`StartingAddress` + memory size / 1024 - 1; in particular for a 2 GiB memory
size and base address 0 it reports starting address 0 and ending address
`2 * 1024 * 1024 - 1`. -/
theorem type19_kb_addresses :
    (∀ systemMemoryBase memorySize : Nat,
      1024 ≤ memorySize →
      systemMemoryBase / 1024 + memorySize / 1024 ≤ 2 ^ 32 →
      memArrMapType19Addresses systemMemoryBase memorySize
        = (systemMemoryBase / 1024,
            systemMemoryBase / 1024 + memorySize / 1024 - 1))
    ∧ memArrMapType19Addresses 0 (2 * 1024 * 1024 * 1024)
        = (0, 2 * 1024 * 1024 - 1) := by
  refine ⟨?_, by decide⟩
  intro base size h1 h2
  have hq : 1 ≤ size / 1024 := by
    exact Nat.le_div_iff_mul_le (by omega) |>.mpr (by omega)
  simp only [memArrMapType19Addresses]
  have e1 : base / 1024 % 2 ^ 32 = base / 1024 := Nat.mod_eq_of_lt (by omega)
  rw [e1]
  have e2 : (base / 1024 + size / 1024 + (2 ^ 64 - 1)) % 2 ^ 64 % 2 ^ 32
      = base / 1024 + size / 1024 - 1 := by
    omega
  rw [e2]

/-- C9 witness: the general formula applied at base 0 and 2 GiB. -/
theorem type19_kb_addresses_witness :
    1024 ≤ 2 * 1024 * 1024 * 1024
    ∧ (0 : Nat) / 1024 + 2 * 1024 * 1024 * 1024 / 1024 ≤ 2 ^ 32
    ∧ memArrMapType19Addresses 0 (2 * 1024 * 1024 * 1024)
        = ((0 : Nat) / 1024, (0 : Nat) / 1024 + 2 * 1024 * 1024 * 1024 / 1024 - 1) :=
  ⟨by decide, by decide,
    type19_kb_addresses.1 0 (2 * 1024 * 1024 * 1024) (by decide) (by decide)⟩

end PlatformSmbiosDxe
